import Mathlib

/-!
Shallow embedding of the webhook subscription router
(`apps/web/src/server/api/routers/webhook.ts`) of the useSend repository,
together with theorems settling the specification claims about it.

The relational store is modelled as explicit lists of rows (`Db`); each
tRPC mutation is a function from inputs and a `Db` to a result paired with
the successor `Db`, and each query is a pure function of the `Db`.  Zod
input validation runs before the handler body and surfaces as a
`BAD_REQUEST` error, matching tRPC's treatment of parse failures.
-/

namespace UseSend

/-- Plan tier of a team (the Prisma `Plan` enum).  The router only ever
compares a plan against `FREE`, so all paid tiers are collapsed into one
representative constructor. -/
inductive Plan
  | FREE
  | PAID
  deriving Repr, DecidableEq

/-- Prisma `WebhookStatus` enum. -/
inductive WebhookStatus
  | ACTIVE
  | PAUSED
  | DISABLED
  | DELETED
  deriving Repr, DecidableEq

/-- Prisma `WebhookCallStatus` enum. -/
inductive WebhookCallStatus
  | PENDING
  | SUCCESS
  | FAILED
  deriving Repr, DecidableEq

/-- The fields of a team that the webhook router reads. -/
structure Team where
  id : String
  isActive : Bool
  plan : Plan
  deriving Repr, DecidableEq

/-- A webhook subscription row.  `createdAt` is an abstract timestamp. -/
structure Webhook where
  id : String
  teamId : String
  url : String
  description : Option String
  secret : String
  eventTypes : List String
  status : WebhookStatus
  consecutiveFailures : Nat
  createdByUserId : String
  createdAt : Nat
  deriving Repr, DecidableEq

/-- A webhook call (delivery audit) row, restricted to the fields the
router filters, orders or returns on: the remaining payload fields are
carried opaquely by the row and never inspected by `listCalls`/`getCall`. -/
structure WebhookCall where
  id : String
  teamId : String
  webhookId : String
  status : WebhookCallStatus
  createdAt : Nat
  deriving Repr, DecidableEq

/-- The slice of the relational store the webhook router touches. -/
structure Db where
  webhooks : List Webhook
  webhookCalls : List WebhookCall
  deriving Repr, DecidableEq

/-- tRPC error codes used by this router.  `BAD_REQUEST` is the code tRPC
assigns to zod input-validation failures. -/
inductive TRPCCode
  | FORBIDDEN
  | NOT_FOUND
  | BAD_REQUEST
  deriving Repr, DecidableEq

/-- A `TRPCError` as thrown by the router. -/
structure TRPCError where
  code : TRPCCode
  message : String
  deriving Repr, DecidableEq

/-- The request context a `teamProcedure` provides: the resolved team and
the session user's id. -/
structure Ctx where
  team : Team
  userId : String
  deriving Repr, DecidableEq

def PLAN_WEBHOOK_LIMIT_FREE : Nat := 1

def PLAN_WEBHOOK_LIMIT_PAID : Nat := 3

/-- `getWebhookLimit` from the router: the paid limit applies only when the
team is active and its plan is not `FREE`. -/
def getWebhookLimit (team : Team) : Nat :=
  let isPaid := team.isActive && decide (team.plan ≠ Plan.FREE)
  if isPaid then PLAN_WEBHOOK_LIMIT_PAID else PLAN_WEBHOOK_LIMIT_FREE

/-- Modelled from the spec: the `WEBHOOK_EVENT_TYPES` enumeration is
imported from `~/server/service/webhook-events`, which is not among the
visible sources; the spec describes account events such as email
sent/bounced/opened.  The claims depend only on membership in a closed
list of tags, never on the particular tags. -/
def WEBHOOK_EVENT_TYPES : List String :=
  ["email.sent", "email.delivered", "email.bounced", "email.opened", "email.clicked"]

/-- Hexadecimal digit character for a value below 16. -/
def hexDigit (n : Nat) : Char :=
  if n < 10 then Char.ofNat (48 + n) else Char.ofNat (87 + n)

/-- Modelled from the spec: `WebhookService.generateSecret` is defined in
`~/server/service/webhook-service`, which is not among the visible
sources; the spec requires a fresh high-entropy opaque token of at least
16 bytes.  It is modelled as a 32-hex-character (16-byte) token derived
from an explicit entropy argument. -/
def generateSecret (entropy : Nat) : String :=
  String.mk ((List.range 32).map (fun i => hexDigit (entropy / 16 ^ i % 16)))

/-- Character-list prefix test (the meaning of `String.startsWith`). -/
def strHasPrefix : List Char → List Char → Bool
  | [], _ => true
  | _ :: _, [] => false
  | c :: p, d :: s => decide (c = d) && strHasPrefix p s

/-- Boolean rendering of zod's `z.string().url()`.  Zod's URL grammar is
approximated by requiring an http or https scheme; no claim depends on
the details of URL syntax. -/
def validUrl (s : String) : Bool :=
  strHasPrefix "http://".data s.data || strHasPrefix "https://".data s.data

/-- Zod check `z.array(EVENT_TYPES_ENUM).min(1)`: a non-empty array of
members of the `WEBHOOK_EVENT_TYPES` enumeration. -/
def validEventTypes (l : List String) : Bool :=
  decide (1 ≤ l.length) && l.all (fun t => decide (t ∈ WEBHOOK_EVENT_TYPES))

/-- Parsed input of the `create` mutation. -/
structure CreateInput where
  url : String
  description : Option String
  eventTypes : List String
  secret : Option String
  deriving Repr, DecidableEq

/-- Zod validation of the `create` input. -/
def validCreateInput (i : CreateInput) : Bool :=
  validUrl i.url &&
    validEventTypes i.eventTypes &&
    (match i.secret with
      | none => true
      | some s => decide (16 ≤ s.length))

/-- The `db.webhook.count` query used by `create`: rows of the team whose
status is not `DELETED`. -/
def nonDeletedCount (db : Db) (teamId : String) : Nat :=
  (db.webhooks.filter
    (fun w => decide (w.teamId = teamId) && decide (w.status ≠ WebhookStatus.DELETED))).length

/-- The `create` mutation.  `entropy` feeds `generateSecret`, `newId` and
`now` stand for the id and `createdAt` the store assigns to the new row;
`consecutiveFailures` takes the schema default `0`. -/
def create (ctx : Ctx) (entropy : Nat) (newId : String) (now : Nat)
    (input : CreateInput) (db : Db) : Except TRPCError Webhook × Db :=
  if validCreateInput input then
    let limit := getWebhookLimit ctx.team
    let count := nonDeletedCount db ctx.team.id
    if limit ≤ count then
      (Except.error ⟨TRPCCode.FORBIDDEN,
        s!"Webhook limit reached: {count}/{limit}. Upgrade plan to add more."⟩, db)
    else
      let secret := input.secret.getD (generateSecret entropy)
      let w : Webhook :=
        { id := newId
          teamId := ctx.team.id
          url := input.url
          description := input.description
          secret := secret
          eventTypes := input.eventTypes
          status := WebhookStatus.ACTIVE
          consecutiveFailures := 0
          createdByUserId := ctx.userId
          createdAt := now }
      (Except.ok w, { db with webhooks := db.webhooks ++ [w] })
  else (Except.error ⟨TRPCCode.BAD_REQUEST, "Invalid input"⟩, db)

/-- Parsed input of the `update` mutation.  `description` distinguishes
absent (`none`) from explicit `null` (`some none`) as
`z.string().nullable().optional()` does. -/
structure UpdateInput where
  id : String
  url : Option String
  description : Option (Option String)
  eventTypes : Option (List String)
  rotateSecret : Option Bool
  secret : Option String
  deriving Repr, DecidableEq

/-- Zod validation of the `update` input. -/
def validUpdateInput (i : UpdateInput) : Bool :=
  (match i.url with
    | none => true
    | some u => validUrl u) &&
    (match i.eventTypes with
      | none => true
      | some l => validEventTypes l) &&
    (match i.secret with
      | none => true
      | some s => decide (16 ≤ s.length))

/-- The `db.webhook.findFirst` query used by `update` and `setStatus`:
first row matching both the id and the team. -/
def findWebhook (db : Db) (id teamId : String) : Option Webhook :=
  db.webhooks.find? (fun w => decide (w.id = id) && decide (w.teamId = teamId))

/-- The `db.webhook.update` write: replace the row(s) bearing `id`. -/
def replaceWebhook (db : Db) (id : String) (w : Webhook) : Db :=
  { db with webhooks := db.webhooks.map (fun x => if x.id = id then w else x) }

/-- The `update` mutation. -/
def update (ctx : Ctx) (entropy : Nat) (input : UpdateInput) (db : Db) :
    Except TRPCError Webhook × Db :=
  if validUpdateInput input then
    match findWebhook db input.id ctx.team.id with
    | none => (Except.error ⟨TRPCCode.NOT_FOUND, "Webhook not found"⟩, db)
    | some webhook =>
      if webhook.status = WebhookStatus.DELETED then
        (Except.error ⟨TRPCCode.NOT_FOUND, "Webhook not found"⟩, db)
      else
        let secret : Option String :=
          if input.rotateSecret = some true then some (generateSecret entropy)
          else input.secret
        let w : Webhook :=
          { webhook with
            url := input.url.getD webhook.url
            description :=
              match input.description with
              | none => webhook.description
              | some d => d
            eventTypes := input.eventTypes.getD webhook.eventTypes
            secret := secret.getD webhook.secret }
        (Except.ok w, replaceWebhook db webhook.id w)
  else (Except.error ⟨TRPCCode.BAD_REQUEST, "Invalid input"⟩, db)

/-- The `setStatus` mutation.  The zod `.refine` rejecting `DELETED`
("Deletion not supported here") runs before the handler body. -/
def setStatus (ctx : Ctx) (id : String) (status : WebhookStatus) (db : Db) :
    Except TRPCError Webhook × Db :=
  if status = WebhookStatus.DELETED then
    (Except.error ⟨TRPCCode.BAD_REQUEST, "Deletion not supported here"⟩, db)
  else
    match findWebhook db id ctx.team.id with
    | none => (Except.error ⟨TRPCCode.NOT_FOUND, "Webhook not found"⟩, db)
    | some webhook =>
      let w : Webhook :=
        { webhook with
          status := status
          consecutiveFailures :=
            if status = WebhookStatus.ACTIVE then 0 else webhook.consecutiveFailures }
      if webhook.status = WebhookStatus.DELETED then
        (Except.error ⟨TRPCCode.NOT_FOUND, "Webhook not found"⟩, db)
      else
        (Except.ok w, replaceWebhook db webhook.id w)

/-- Parsed input of the `listCalls` query; `limit = none` stands for an
omitted limit, which zod defaults to 20. -/
structure ListCallsInput where
  webhookId : Option String
  status : Option WebhookCallStatus
  limit : Option Nat
  cursor : Option String
  deriving Repr, DecidableEq

/-- Zod validation of the `listCalls` input: a supplied limit must lie
between 1 and 50. -/
def validListCallsInput (i : ListCallsInput) : Bool :=
  match i.limit with
  | none => true
  | some l => decide (1 ≤ l) && decide (l ≤ 50)

/-- The Prisma `where` clause of `listCalls`: team scope plus the optional
`webhookId` and `status` filters (an absent filter matches every row). -/
def matchesCallFilter (teamId : String) (i : ListCallsInput) (c : WebhookCall) : Bool :=
  decide (c.teamId = teamId) &&
    (match i.webhookId with
      | none => true
      | some w => decide (c.webhookId = w)) &&
    (match i.status with
      | none => true
      | some s => decide (c.status = s))

/-- The `orderBy: createdAt desc` comparison. -/
def byCreatedAtDesc (a b : WebhookCall) : Bool :=
  decide (b.createdAt ≤ a.createdAt)

/-- Prisma cursor positioning: results start at the row bearing the cursor
id, inclusive; an absent cursor starts at the beginning. -/
def applyCursor (cursor : Option String) (l : List WebhookCall) : List WebhookCall :=
  match cursor with
  | none => l
  | some c => l.dropWhile (fun r => decide (r.id ≠ c))

/-- The `db.webhookCall.findMany` query of `listCalls`: filter, order by
`createdAt` descending, position at the cursor, take `n` rows. -/
def findManyCalls (teamId : String) (i : ListCallsInput) (n : Nat) (db : Db) :
    List WebhookCall :=
  (applyCursor i.cursor
    ((db.webhookCalls.filter (matchesCallFilter teamId i)).mergeSort byCreatedAtDesc)).take n

/-- Return shape of `listCalls`. -/
structure ListCallsResult where
  items : List WebhookCall
  nextCursor : Option String
  deriving Repr, DecidableEq

/-- The `listCalls` query: fetch `limit + 1` rows; when more than `limit`
arrived, pop the last one and expose its id as `nextCursor`. -/
def listCalls (ctx : Ctx) (input : ListCallsInput) (db : Db) :
    Except TRPCError ListCallsResult :=
  if validListCallsInput input then
    let lim := input.limit.getD 20
    let calls := findManyCalls ctx.team.id input (lim + 1) db
    if lim < calls.length then
      Except.ok { items := calls.dropLast, nextCursor := calls.getLast?.map WebhookCall.id }
    else
      Except.ok { items := calls, nextCursor := none }
  else Except.error ⟨TRPCCode.BAD_REQUEST, "Invalid input"⟩

/-- The `getCall` query. -/
def getCall (ctx : Ctx) (id : String) (db : Db) : Except TRPCError WebhookCall :=
  match db.webhookCalls.find?
      (fun c => decide (c.id = id) && decide (c.teamId = ctx.team.id)) with
  | none => Except.error ⟨TRPCCode.NOT_FOUND, "Webhook call not found"⟩
  | some c => Except.ok c

/-- Error code of a router result, `none` on success. -/
def resultCode {α : Type} (r : Except TRPCError α) : Option TRPCCode :=
  match r with
  | Except.error e => some e.code
  | Except.ok _ => none

/-- Plan limit exactly as the claim states it: determined by plan tier
alone, free = 1, paid = 3.  To be compared with `getWebhookLimit`, which
additionally demands `isActive` for the paid limit. -/
def specWebhookLimit (team : Team) : Nat :=
  if team.plan = Plan.FREE then 1 else 3

end UseSend

namespace UseSend

theorem generateSecret_length (entropy : Nat) : (generateSecret entropy).length = 32 := by
  simp [generateSecret, String.length]

theorem getWebhookLimit_le_specWebhookLimit (team : Team) :
    getWebhookLimit team ≤ specWebhookLimit team := by
  rcases team with ⟨i, a, p⟩
  cases p <;> cases a <;>
    simp [getWebhookLimit, specWebhookLimit, PLAN_WEBHOOK_LIMIT_FREE, PLAN_WEBHOOK_LIMIT_PAID]

theorem nonDeletedCount_append (db : Db) (teamId : String) (w : Webhook)
    (ht : w.teamId = teamId) (hs : w.status ≠ WebhookStatus.DELETED) :
    nonDeletedCount { db with webhooks := db.webhooks ++ [w] } teamId =
      nonDeletedCount db teamId + 1 := by
  simp [nonDeletedCount, List.filter_append, List.filter, ht, hs]

/-- Shared fixture: a free, active team. -/
def teamW : Team := { id := "t1", isActive := true, plan := Plan.FREE }

/-- Shared fixture: request context for `teamW`. -/
def ctxW : Ctx := { team := teamW, userId := "u1" }

/-- Shared fixture: an ACTIVE subscription of `teamW` with four recorded
consecutive failures. -/
def whW : Webhook :=
  { id := "w1"
    teamId := "t1"
    url := "https://a.example/h"
    description := none
    secret := "0123456789abcdef"
    eventTypes := ["email.sent"]
    status := WebhookStatus.ACTIVE
    consecutiveFailures := 4
    createdByUserId := "u1"
    createdAt := 1 }

/-- Shared fixture: store holding just `whW`. -/
def dbW : Db := { webhooks := [whW], webhookCalls := [] }

/-- Shared fixture: empty store. -/
def dbE : Db := { webhooks := [], webhookCalls := [] }

/-- Shared fixture: a well-formed `create` input with no caller secret. -/
def ciW : CreateInput :=
  { url := "https://example.com/hook"
    description := none
    eventTypes := ["email.sent"]
    secret := none }

/-- C1: given input that passes validation, `create` fails with the
quota-exceeded error (code `FORBIDDEN`) whenever the team already holds at
least `specWebhookLimit` (free = 1, paid = 3) non-DELETED subscriptions,
and whenever it returns successfully the team's count of non-DELETED
subscriptions stays at or below that bound. -/
theorem C1_create_quota (ctx : Ctx) (entropy : Nat) (newId : String) (now : Nat)
    (input : CreateInput) (db : Db) (hv : validCreateInput input = true) :
    (specWebhookLimit ctx.team ≤ nonDeletedCount db ctx.team.id →
      resultCode (create ctx entropy newId now input db).1 = some TRPCCode.FORBIDDEN) ∧
    (∀ w, (create ctx entropy newId now input db).1 = Except.ok w →
      nonDeletedCount (create ctx entropy newId now input db).2 ctx.team.id ≤
        specWebhookLimit ctx.team) := by
  constructor
  · intro hge
    have hcond : getWebhookLimit ctx.team ≤ nonDeletedCount db ctx.team.id :=
      le_trans (getWebhookLimit_le_specWebhookLimit ctx.team) hge
    simp [create, hv, hcond, resultCode]
  · intro w hok
    by_cases hlc : getWebhookLimit ctx.team ≤ nonDeletedCount db ctx.team.id
    · simp [create, hv, hlc] at hok
    · rw [show (create ctx entropy newId now input db).2 =
          { db with webhooks := db.webhooks ++
            [{ id := newId
               teamId := ctx.team.id
               url := input.url
               description := input.description
               secret := input.secret.getD (generateSecret entropy)
               eventTypes := input.eventTypes
               status := WebhookStatus.ACTIVE
               consecutiveFailures := 0
               createdByUserId := ctx.userId
               createdAt := now }] } by simp [create, hv, hlc]]
      rw [nonDeletedCount_append db ctx.team.id _ rfl (by simp)]
      have hlt : nonDeletedCount db ctx.team.id < getWebhookLimit ctx.team :=
        Nat.lt_of_not_le hlc
      exact le_trans hlt (getWebhookLimit_le_specWebhookLimit ctx.team)

/-- Witness for C1 at a concrete input: a free team already holding one
non-DELETED subscription is refused a second one. -/
theorem C1_create_quota_witness :
    validCreateInput ciW = true ∧
      specWebhookLimit ctxW.team ≤ nonDeletedCount dbW ctxW.team.id ∧
      resultCode (create ctxW 7 "w2" 2 ciW dbW).1 = some TRPCCode.FORBIDDEN :=
  ⟨by decide, by decide, (C1_create_quota ctxW 7 "w2" 2 ciW dbW (by decide)).1 (by decide)⟩

/-- C2: on an existing non-DELETED subscription of the team, `setStatus`
to ACTIVE returns the subscription with status ACTIVE and
`consecutiveFailures` reset to 0, all other fields untouched, and stores
exactly that row. -/
theorem C2_setStatus_active (ctx : Ctx) (id : String) (db : Db) (w : Webhook)
    (hf : findWebhook db id ctx.team.id = some w)
    (hd : w.status ≠ WebhookStatus.DELETED) :
    setStatus ctx id WebhookStatus.ACTIVE db =
      (Except.ok { w with status := WebhookStatus.ACTIVE, consecutiveFailures := 0 },
        replaceWebhook db w.id
          { w with status := WebhookStatus.ACTIVE, consecutiveFailures := 0 }) := by
  simp [setStatus, hf, hd]

/-- Witness for C2: reactivating the already-ACTIVE fixture subscription
resets its failure counter to 0 and changes nothing else. -/
theorem C2_setStatus_active_witness :
    findWebhook dbW "w1" ctxW.team.id = some whW ∧
      whW.status ≠ WebhookStatus.DELETED ∧
      setStatus ctxW "w1" WebhookStatus.ACTIVE dbW =
        (Except.ok { whW with status := WebhookStatus.ACTIVE, consecutiveFailures := 0 },
          replaceWebhook dbW whW.id
            { whW with status := WebhookStatus.ACTIVE, consecutiveFailures := 0 }) :=
  ⟨by decide, by decide, C2_setStatus_active ctxW "w1" dbW whW (by decide) (by decide)⟩

/-- C4: `setStatus` with target status DELETED always fails with the
`InvalidTransition`-style refine error (`BAD_REQUEST`, "Deletion not
supported here") and leaves the store untouched. -/
theorem C4_setStatus_deleted (ctx : Ctx) (id : String) (db : Db) :
    (setStatus ctx id WebhookStatus.DELETED db).1 =
      Except.error ⟨TRPCCode.BAD_REQUEST, "Deletion not supported here"⟩ ∧
    (setStatus ctx id WebhookStatus.DELETED db).2 = db := by
  constructor <;> simp [setStatus]

end UseSend

namespace UseSend

theorem mem_of_getElem?_some {α : Type} {l : List α} {i : Nat} {x : α}
    (h : l[i]? = some x) : x ∈ l := by
  rcases List.getElem?_eq_some.mp h with ⟨hlt, hget⟩
  exact hget ▸ List.getElem_mem hlt

theorem findWebhook_some (db : Db) (id teamId : String) (w : Webhook)
    (h : findWebhook db id teamId = some w) :
    w ∈ db.webhooks ∧ w.id = id ∧ w.teamId = teamId := by
  have hp := List.find?_some h
  simp only [Bool.and_eq_true, decide_eq_true_eq] at hp
  exact ⟨List.mem_of_find?_eq_some h, hp.1, hp.2⟩

theorem replaceWebhook_getElem (db : Db) (w w' : Webhook) (i : Nat)
    (hnd : (db.webhooks.map Webhook.id).Nodup) (hw : w ∈ db.webhooks) :
    (replaceWebhook db w.id w').webhooks[i]? = db.webhooks[i]? ∨
      (db.webhooks[i]? = some w ∧ (replaceWebhook db w.id w').webhooks[i]? = some w') := by
  unfold replaceWebhook
  simp only [List.getElem?_map]
  cases hx : db.webhooks[i]? with
  | none => left; rfl
  | some x =>
    by_cases hid : x.id = w.id
    · right
      have hxw : x = w := List.inj_on_of_nodup_map hnd (mem_of_getElem?_some hx) hw hid
      subst hxw
      exact ⟨rfl, by simp [hid]⟩
    · left; simp [hid]

theorem create_snd_frame (ctx : Ctx) (entropy : Nat) (newId : String) (now : Nat)
    (ci : CreateInput) (db : Db) (i : Nat) (hi : i < db.webhooks.length) :
    (create ctx entropy newId now ci db).2.webhooks[i]? = db.webhooks[i]? := by
  unfold create
  by_cases hv : validCreateInput ci = true
  · by_cases hlc : getWebhookLimit ctx.team ≤ nonDeletedCount db ctx.team.id
    · simp [hv, hlc]
    · simp [hv, hlc, List.getElem?_append_left hi]
  · simp [hv]

theorem update_snd_frame (ctx : Ctx) (entropy : Nat) (ui : UpdateInput) (db : Db)
    (i : Nat) (hnd : (db.webhooks.map Webhook.id).Nodup) :
    ((update ctx entropy ui db).2.webhooks[i]?).map Webhook.consecutiveFailures =
      (db.webhooks[i]?).map Webhook.consecutiveFailures := by
  unfold update
  by_cases hv : validUpdateInput ui = true
  · simp only [hv, if_true]
    cases hf : findWebhook db ui.id ctx.team.id with
    | none => simp
    | some w =>
      have hw := findWebhook_some db ui.id ctx.team.id w hf
      by_cases hd : w.status = WebhookStatus.DELETED
      · simp [hd]
      · simp only [hd, if_false]
        rcases replaceWebhook_getElem db w
            { w with
              url := ui.url.getD w.url
              description :=
                match ui.description with
                | none => w.description
                | some d => d
              eventTypes := ui.eventTypes.getD w.eventTypes
              secret := (if ui.rotateSecret = some true then some (generateSecret entropy)
                else ui.secret).getD w.secret }
            i hnd hw.1 with hcase | ⟨hsome, hrepl⟩
        · simp only [hcase]
        · rw [hrepl, hsome]
          rfl
  · simp [hv]

theorem setStatus_snd_frame (ctx : Ctx) (id : String) (st : WebhookStatus) (db : Db)
    (i : Nat) (hnd : (db.webhooks.map Webhook.id).Nodup) :
    ((setStatus ctx id st db).2.webhooks[i]?).map Webhook.consecutiveFailures =
      (db.webhooks[i]?).map Webhook.consecutiveFailures ∨
    (st = WebhookStatus.ACTIVE ∧
      ((setStatus ctx id st db).2.webhooks[i]?).map Webhook.consecutiveFailures = some 0) := by
  unfold setStatus
  by_cases hdel : st = WebhookStatus.DELETED
  · simp [hdel]
  · simp only [hdel, if_false]
    cases hf : findWebhook db id ctx.team.id with
    | none => simp
    | some w =>
      have hw := findWebhook_some db id ctx.team.id w hf
      by_cases hd : w.status = WebhookStatus.DELETED
      · simp [hd]
      · by_cases hact : st = WebhookStatus.ACTIVE
        · subst hact
          simp only [hd, if_false, if_true, reduceIte]
          rcases replaceWebhook_getElem db w
              { w with status := WebhookStatus.ACTIVE, consecutiveFailures := 0 }
              i hnd hw.1 with hcase | ⟨hsome, hrepl⟩
          · left; simp only [hcase]
          · right
            constructor
            · trivial
            · rw [hrepl]
              rfl
        · simp only [hd, if_false, hact, reduceIte]
          rcases replaceWebhook_getElem db w
              { w with status := st, consecutiveFailures := w.consecutiveFailures }
              i hnd hw.1 with hcase | ⟨hsome, hrepl⟩
          · left; simp only [hcase]
          · left
            rw [hrepl, hsome]
            rfl

/-- C3: across the subscription-management operations of the router the
stored `consecutiveFailures` counters never change — in particular never
decrease — with the single exception that `setStatus` with target status
ACTIVE resets the targeted subscription's counter to 0. -/
theorem C3_consecutiveFailures_frame (ctx : Ctx) (entropy : Nat) (newId : String)
    (now : Nat) (ci : CreateInput) (ui : UpdateInput) (id : String)
    (st : WebhookStatus) (db : Db)
    (hnd : (db.webhooks.map Webhook.id).Nodup) :
    (∀ i : Nat, i < db.webhooks.length →
      ((create ctx entropy newId now ci db).2.webhooks[i]?).map Webhook.consecutiveFailures =
        (db.webhooks[i]?).map Webhook.consecutiveFailures) ∧
    (∀ i : Nat, ((update ctx entropy ui db).2.webhooks[i]?).map Webhook.consecutiveFailures =
        (db.webhooks[i]?).map Webhook.consecutiveFailures) ∧
    (st ≠ WebhookStatus.ACTIVE →
      ∀ i : Nat, ((setStatus ctx id st db).2.webhooks[i]?).map Webhook.consecutiveFailures =
        (db.webhooks[i]?).map Webhook.consecutiveFailures) ∧
    (∀ i : Nat, ((setStatus ctx id WebhookStatus.ACTIVE db).2.webhooks[i]?).map
          Webhook.consecutiveFailures =
        (db.webhooks[i]?).map Webhook.consecutiveFailures ∨
      ((setStatus ctx id WebhookStatus.ACTIVE db).2.webhooks[i]?).map
          Webhook.consecutiveFailures = some 0) := by
  refine ⟨?_, ?_, ?_, ?_⟩
  · intro i hi
    rw [create_snd_frame ctx entropy newId now ci db i hi]
  · intro i
    exact update_snd_frame ctx entropy ui db i hnd
  · intro hst i
    rcases setStatus_snd_frame ctx id st db i hnd with h | ⟨hact, _⟩
    · exact h
    · exact absurd hact hst
  · intro i
    rcases setStatus_snd_frame ctx id WebhookStatus.ACTIVE db i hnd with h | ⟨_, h0⟩
    · exact Or.inl h
    · exact Or.inr h0

/-- Shared fixture: a well-formed `update` input targeting `whW` that
changes only the description. -/
def uiW : UpdateInput :=
  { id := "w1"
    url := none
    description := some (some "updated")
    eventTypes := none
    rotateSecret := none
    secret := none }

/-- Witness for C3 at concrete inputs over the one-subscription fixture
store, exercising all four conjuncts at index 0. -/
theorem C3_consecutiveFailures_frame_witness :
    (dbW.webhooks.map Webhook.id).Nodup ∧
      ((create ctxW 7 "w2" 2 ciW dbW).2.webhooks[0]?).map Webhook.consecutiveFailures =
        (dbW.webhooks[0]?).map Webhook.consecutiveFailures ∧
      ((update ctxW 7 uiW dbW).2.webhooks[0]?).map Webhook.consecutiveFailures =
        (dbW.webhooks[0]?).map Webhook.consecutiveFailures ∧
      ((setStatus ctxW "w1" WebhookStatus.PAUSED dbW).2.webhooks[0]?).map
          Webhook.consecutiveFailures =
        (dbW.webhooks[0]?).map Webhook.consecutiveFailures ∧
      (((setStatus ctxW "w1" WebhookStatus.ACTIVE dbW).2.webhooks[0]?).map
          Webhook.consecutiveFailures =
        (dbW.webhooks[0]?).map Webhook.consecutiveFailures ∨
      ((setStatus ctxW "w1" WebhookStatus.ACTIVE dbW).2.webhooks[0]?).map
          Webhook.consecutiveFailures = some 0) := by
  have h := C3_consecutiveFailures_frame ctxW 7 "w2" 2 ciW uiW "w1"
    WebhookStatus.PAUSED dbW (by decide)
  exact ⟨by decide, h.1 0 (by decide), h.2.1 0, h.2.2.1 (by decide) 0, h.2.2.2 0⟩

/-- C5: with input that passes validation, `update` and `setStatus` fail
with `NOT_FOUND` and leave the store untouched whenever every stored row
bearing the requested id and team is DELETED (covering absent rows,
team-mismatched rows and DELETED rows), and `getCall` fails with
`NOT_FOUND` whenever no call row bears the requested id and team. -/
theorem C5_not_found (ctx : Ctx) (entropy : Nat) (ui : UpdateInput)
    (sid cid : String) (st : WebhookStatus) (db : Db)
    (hvu : validUpdateInput ui = true)
    (hu : ∀ w ∈ db.webhooks, w.id = ui.id → w.teamId = ctx.team.id →
      w.status = WebhookStatus.DELETED)
    (hst : st ≠ WebhookStatus.DELETED)
    (hs : ∀ w ∈ db.webhooks, w.id = sid → w.teamId = ctx.team.id →
      w.status = WebhookStatus.DELETED)
    (hc : ∀ c ∈ db.webhookCalls, c.id = cid → c.teamId ≠ ctx.team.id) :
    (resultCode (update ctx entropy ui db).1 = some TRPCCode.NOT_FOUND ∧
      (update ctx entropy ui db).2 = db) ∧
    (resultCode (setStatus ctx sid st db).1 = some TRPCCode.NOT_FOUND ∧
      (setStatus ctx sid st db).2 = db) ∧
    resultCode (getCall ctx cid db) = some TRPCCode.NOT_FOUND := by
  refine ⟨?_, ?_, ?_⟩
  · unfold update
    cases hf : findWebhook db ui.id ctx.team.id with
    | none => simp [hvu, resultCode]
    | some w =>
      have hw := findWebhook_some db ui.id ctx.team.id w hf
      have hdel : w.status = WebhookStatus.DELETED := hu w hw.1 hw.2.1 hw.2.2
      simp [hvu, hdel, resultCode]
  · unfold setStatus
    cases hf : findWebhook db sid ctx.team.id with
    | none => simp [hst, resultCode]
    | some w =>
      have hw := findWebhook_some db sid ctx.team.id w hf
      have hdel : w.status = WebhookStatus.DELETED := hs w hw.1 hw.2.1 hw.2.2
      simp [hst, hdel, resultCode]
  · unfold getCall
    cases hf : db.webhookCalls.find?
        (fun c => decide (c.id = cid) && decide (c.teamId = ctx.team.id)) with
    | none => simp [resultCode]
    | some c =>
      have hp := List.find?_some hf
      simp only [Bool.and_eq_true, decide_eq_true_eq] at hp
      exact absurd hp.2 (hc c (List.mem_of_find?_eq_some hf) hp.1)

/-- Shared fixture: a DELETED subscription of `teamW`. -/
def whDel : Webhook :=
  { whW with id := "w9", status := WebhookStatus.DELETED }

/-- Shared fixture: store holding only the DELETED subscription and no
call rows. -/
def dbDel : Db := { webhooks := [whDel], webhookCalls := [] }

/-- Witness for C5: updating, pausing or reading back records against a
store that only holds a DELETED subscription and no calls yields
`NOT_FOUND` everywhere and leaves the store untouched. -/
theorem C5_not_found_witness :
    validUpdateInput { uiW with id := "w9" } = true ∧
      (resultCode (update ctxW 7 { uiW with id := "w9" } dbDel).1 =
          some TRPCCode.NOT_FOUND ∧
        (update ctxW 7 { uiW with id := "w9" } dbDel).2 = dbDel) ∧
      (resultCode (setStatus ctxW "w9" WebhookStatus.PAUSED dbDel).1 =
          some TRPCCode.NOT_FOUND ∧
        (setStatus ctxW "w9" WebhookStatus.PAUSED dbDel).2 = dbDel) ∧
      resultCode (getCall ctxW "c1" dbDel) = some TRPCCode.NOT_FOUND := by
  have h := C5_not_found ctxW 7 { uiW with id := "w9" } "w9" "c1"
    WebhookStatus.PAUSED dbDel (by decide) (by decide) (by decide) (by decide) (by decide)
  exact ⟨by decide, h.1, h.2.1, h.2.2⟩

end UseSend

namespace UseSend

/-- C7: a caller-supplied secret passes `create` or `update` validation
only when it is at least 16 characters long; when the caller supplies none
a successful `create` stores the fresh `generateSecret` token; and both a
successful `create` and a successful `update` (from a stored row already
meeting the bound) store a secret of at least 16 characters. -/
theorem C7_secret_min_length (ctx : Ctx) (entropy : Nat) (newId : String) (now : Nat)
    (i : CreateInput) (ui : UpdateInput) (db : Db) :
    (∀ s, validCreateInput i = true → i.secret = some s → 16 ≤ s.length) ∧
    (∀ s, validUpdateInput ui = true → ui.secret = some s → 16 ≤ s.length) ∧
    (∀ w, (create ctx entropy newId now i db).1 = Except.ok w →
      (i.secret = none → w.secret = generateSecret entropy) ∧ 16 ≤ w.secret.length) ∧
    (∀ w₀ w, findWebhook db ui.id ctx.team.id = some w₀ →
      16 ≤ w₀.secret.length →
      (update ctx entropy ui db).1 = Except.ok w → 16 ≤ w.secret.length) := by
  have hcv : ∀ s, validCreateInput i = true → i.secret = some s → 16 ≤ s.length := by
    intro s hv hs
    unfold validCreateInput at hv
    rw [hs] at hv
    simp only [Bool.and_eq_true, decide_eq_true_eq] at hv
    exact hv.2
  have huv : ∀ s, validUpdateInput ui = true → ui.secret = some s → 16 ≤ s.length := by
    intro s hv hs
    unfold validUpdateInput at hv
    rw [hs] at hv
    simp only [Bool.and_eq_true, decide_eq_true_eq] at hv
    exact hv.2
  refine ⟨hcv, huv, ?_, ?_⟩
  · intro w hok
    by_cases hv : validCreateInput i = true
    · by_cases hlc : getWebhookLimit ctx.team ≤ nonDeletedCount db ctx.team.id
      · simp [create, hv, hlc] at hok
      · simp only [create, hv, hlc, if_true, if_false, reduceIte, Except.ok.injEq] at hok
        subst hok
        constructor
        · intro hs
          simp [hs]
        · cases hs : i.secret with
          | none =>
            simp only [hs, Option.getD_none, generateSecret_length]
            omega
          | some s =>
            simpa [hs] using hcv s hv hs
    · simp [create, hv] at hok
  · intro w₀ w hf h0 hok
    by_cases hv : validUpdateInput ui = true
    · by_cases hd : w₀.status = WebhookStatus.DELETED
      · simp [update, hv, hf, hd] at hok
      · simp only [update, hv, hf, hd, if_true, if_false, reduceIte, Except.ok.injEq] at hok
        subst hok
        by_cases hr : ui.rotateSecret = some true
        · simp only [hr, if_true, reduceIte, Option.getD_some, generateSecret_length]
          omega
        · cases hs : ui.secret with
          | none => simpa [hr, hs] using h0
          | some s => simpa [hr, hs] using huv s hv hs
    · simp [update, hv] at hok

/-- Shared fixture: the row a successful `create` of `ciW` on the empty
store produces, its secret freshly generated. -/
def whNew : Webhook :=
  { id := "w1"
    teamId := "t1"
    url := "https://example.com/hook"
    description := none
    secret := generateSecret 7
    eventTypes := ["email.sent"]
    status := WebhookStatus.ACTIVE
    consecutiveFailures := 0
    createdByUserId := "u1"
    createdAt := 1 }

/-- Shared fixture: an `update` input supplying an 18-character secret
(and otherwise only touching the description). -/
def uiSec : UpdateInput :=
  { id := "w1"
    url := none
    description := some (some "updated")
    eventTypes := none
    rotateSecret := none
    secret := some "abcdefghijklmnopqr" }

/-- Shared fixture: the row the `uiSec` update of `whW` stores. -/
def whUpd : Webhook :=
  { whW with description := some "updated", secret := "abcdefghijklmnopqr" }

/-- Witness for C7: creating with no caller secret on the empty store
stores the generated 32-character token, and updating the fixture row
with an 18-character secret keeps the stored secret at 16 characters or
more. -/
theorem C7_secret_min_length_witness :
    ((create ctxW 7 "w1" 1 ciW dbE).1 = Except.ok whNew ∧
      (ciW.secret = none → whNew.secret = generateSecret 7) ∧
      16 ≤ whNew.secret.length) ∧
    (findWebhook dbW "w1" ctxW.team.id = some whW ∧ 16 ≤ whW.secret.length ∧
      (update ctxW 7 uiSec dbW).1 = Except.ok whUpd ∧ 16 ≤ whUpd.secret.length) :=
  ⟨⟨by rfl, (C7_secret_min_length ctxW 7 "w1" 1 ciW uiSec dbE).2.2.1 whNew (by rfl)⟩,
    by decide, by decide, by rfl,
    (C7_secret_min_length ctxW 7 "w1" 1 ciW uiSec dbW).2.2.2 whW whUpd
      (by decide) (by decide) (by rfl)⟩

theorem validEventTypes_iff (l : List String) :
    validEventTypes l = true ↔ l ≠ [] ∧ ∀ t ∈ l, t ∈ WEBHOOK_EVENT_TYPES := by
  unfold validEventTypes
  simp only [Bool.and_eq_true, decide_eq_true_eq, List.all_eq_true]
  constructor
  · intro ⟨h1, h2⟩
    refine ⟨?_, h2⟩
    intro he
    rw [he] at h1
    simp at h1
  · intro ⟨h1, h2⟩
    refine ⟨?_, h2⟩
    cases l with
    | nil => exact absurd rfl h1
    | cons a t => simp

/-- C8: `create` and `update` reject with the zod validation error
(`BAD_REQUEST`) any input whose event-type list is empty or contains a tag
outside `WEBHOOK_EVENT_TYPES`, and the rows they return on success always
carry a non-empty event-type list drawn from that enumeration. -/
theorem C8_eventTypes (ctx : Ctx) (entropy : Nat) (newId : String) (now : Nat)
    (ci : CreateInput) (ui : UpdateInput) (db : Db) :
    ((ci.eventTypes = [] ∨ ∃ t ∈ ci.eventTypes, t ∉ WEBHOOK_EVENT_TYPES) →
      resultCode (create ctx entropy newId now ci db).1 = some TRPCCode.BAD_REQUEST) ∧
    (∀ l, ui.eventTypes = some l →
      (l = [] ∨ ∃ t ∈ l, t ∉ WEBHOOK_EVENT_TYPES) →
      resultCode (update ctx entropy ui db).1 = some TRPCCode.BAD_REQUEST) ∧
    (∀ w, (create ctx entropy newId now ci db).1 = Except.ok w →
      w.eventTypes ≠ [] ∧ ∀ t ∈ w.eventTypes, t ∈ WEBHOOK_EVENT_TYPES) ∧
    (∀ w₀ w, findWebhook db ui.id ctx.team.id = some w₀ →
      w₀.eventTypes ≠ [] → (∀ t ∈ w₀.eventTypes, t ∈ WEBHOOK_EVENT_TYPES) →
      (update ctx entropy ui db).1 = Except.ok w →
      w.eventTypes ≠ [] ∧ ∀ t ∈ w.eventTypes, t ∈ WEBHOOK_EVENT_TYPES) := by
  have hbad : ∀ l : List String,
      (l = [] ∨ ∃ t ∈ l, t ∉ WEBHOOK_EVENT_TYPES) → validEventTypes l = false := by
    intro l hl
    cases hvl : validEventTypes l with
    | false => rfl
    | true =>
      rcases (validEventTypes_iff l).mp hvl with ⟨h1, h2⟩
      rcases hl with he | ⟨t, ht, hnt⟩
      · exact absurd he h1
      · exact absurd (h2 t ht) hnt
  refine ⟨?_, ?_, ?_, ?_⟩
  · intro hl
    have hv : validCreateInput ci = false := by
      unfold validCreateInput
      rw [hbad ci.eventTypes hl]
      simp
    simp [create, hv, resultCode]
  · intro l hl hbadl
    have hv : validUpdateInput ui = false := by
      unfold validUpdateInput
      simp [hl, hbad l hbadl]
    simp [update, hv, resultCode]
  · intro w hok
    by_cases hv : validCreateInput ci = true
    · by_cases hlc : getWebhookLimit ctx.team ≤ nonDeletedCount db ctx.team.id
      · simp [create, hv, hlc] at hok
      · simp only [create, hv, hlc, if_true, if_false, reduceIte, Except.ok.injEq] at hok
        subst hok
        have hvt : validEventTypes ci.eventTypes = true := by
          unfold validCreateInput at hv
          simp only [Bool.and_eq_true] at hv
          exact hv.1.2
        exact (validEventTypes_iff ci.eventTypes).mp hvt
    · simp [create, hv] at hok
  · intro w₀ w hf h0ne h0mem hok
    by_cases hv : validUpdateInput ui = true
    · by_cases hd : w₀.status = WebhookStatus.DELETED
      · simp [update, hv, hf, hd] at hok
      · simp only [update, hv, hf, hd, if_true, if_false, reduceIte, Except.ok.injEq] at hok
        subst hok
        cases hl : ui.eventTypes with
        | none => simpa [hl] using ⟨h0ne, h0mem⟩
        | some l =>
          have hvt : validEventTypes l = true := by
            unfold validUpdateInput at hv
            rw [hl] at hv
            simp only [Bool.and_eq_true] at hv
            exact hv.1.2
          simpa [hl] using (validEventTypes_iff l).mp hvt
    · simp [update, hv] at hok

/-- Witness for C8: a create whose event list holds an unknown tag is
rejected with the validation error. -/
theorem C8_eventTypes_witness :
    ({ ciW with eventTypes := ["bogus"] } : CreateInput).eventTypes = [] ∨
      (∃ t ∈ ({ ciW with eventTypes := ["bogus"] } : CreateInput).eventTypes,
        t ∉ WEBHOOK_EVENT_TYPES) ∧
      resultCode (create ctxW 7 "w1" 1 { ciW with eventTypes := ["bogus"] } dbE).1 =
        some TRPCCode.BAD_REQUEST :=
  Or.inr ⟨⟨"bogus", by decide, by decide⟩,
    (C8_eventTypes ctxW 7 "w1" 1 { ciW with eventTypes := ["bogus"] } uiW dbE).1
      (Or.inr ⟨"bogus", by decide, by decide⟩)⟩

theorem update_ok_shape (ctx : Ctx) (entropy : Nat) (ui : UpdateInput) (db : Db)
    (w₀ : Webhook)
    (hv : validUpdateInput ui = true)
    (hf : findWebhook db ui.id ctx.team.id = some w₀)
    (hd : w₀.status ≠ WebhookStatus.DELETED) :
    (update ctx entropy ui db).1 = Except.ok
      { w₀ with
        url := ui.url.getD w₀.url
        description :=
          match ui.description with
          | none => w₀.description
          | some d => d
        eventTypes := ui.eventTypes.getD w₀.eventTypes
        secret := (if ui.rotateSecret = some true then some (generateSecret entropy)
          else ui.secret).getD w₀.secret } := by
  simp [update, hv, hf, hd]

/-- C9: on a successful `update`, `rotateSecret = true` makes the stored
secret the freshly generated token regardless of any supplied secret,
while with `rotateSecret` absent or false and no supplied secret the
stored secret is the old one. -/
theorem C9_update_rotateSecret (ctx : Ctx) (entropy : Nat) (ui : UpdateInput)
    (db : Db) (w₀ : Webhook)
    (hv : validUpdateInput ui = true)
    (hf : findWebhook db ui.id ctx.team.id = some w₀)
    (hd : w₀.status ≠ WebhookStatus.DELETED) :
    ∃ w, (update ctx entropy ui db).1 = Except.ok w ∧
      (ui.rotateSecret = some true → w.secret = generateSecret entropy) ∧
      (ui.rotateSecret ≠ some true → ui.secret = none → w.secret = w₀.secret) := by
  refine ⟨_, update_ok_shape ctx entropy ui db w₀ hv hf hd, ?_, ?_⟩
  · intro hr
    simp [hr]
  · intro hr hs
    simp [hr, hs]

/-- Shared fixture: an `update` input that both rotates the secret and
supplies one, to exhibit the precedence of rotation. -/
def uiRot : UpdateInput :=
  { uiW with rotateSecret := some true, secret := some "abcdefghijklmnopqr" }

/-- Witness for C9: rotating overrides the supplied secret on the fixture
store. -/
theorem C9_update_rotateSecret_witness :
    validUpdateInput uiRot = true ∧
      ∃ w, (update ctxW 7 uiRot dbW).1 = Except.ok w ∧ w.secret = generateSecret 7 := by
  refine ⟨by decide, ?_⟩
  rcases C9_update_rotateSecret ctxW 7 uiRot dbW whW (by decide) (by decide) (by decide)
    with ⟨w, hok, hrot, _⟩
  exact ⟨w, hok, hrot (by decide)⟩

/-- C10: a successful `update` leaves `status`, `consecutiveFailures`,
`teamId` and `createdByUserId` (as well as `id` and `createdAt`) of the
subscription unchanged: only `url`, `description`, `eventTypes` and
`secret` can differ. -/
theorem C10_update_frame (ctx : Ctx) (entropy : Nat) (ui : UpdateInput)
    (db : Db) (w₀ : Webhook)
    (hv : validUpdateInput ui = true)
    (hf : findWebhook db ui.id ctx.team.id = some w₀)
    (hd : w₀.status ≠ WebhookStatus.DELETED) :
    ∃ w, (update ctx entropy ui db).1 = Except.ok w ∧
      w.id = w₀.id ∧ w.teamId = w₀.teamId ∧ w.status = w₀.status ∧
      w.consecutiveFailures = w₀.consecutiveFailures ∧
      w.createdByUserId = w₀.createdByUserId ∧ w.createdAt = w₀.createdAt :=
  ⟨_, update_ok_shape ctx entropy ui db w₀ hv hf hd, rfl, rfl, rfl, rfl, rfl, rfl⟩

/-- Witness for C10: updating the fixture subscription's description
leaves the protected fields untouched. -/
theorem C10_update_frame_witness :
    validUpdateInput uiW = true ∧
      ∃ w, (update ctxW 7 uiW dbW).1 = Except.ok w ∧
        w.status = whW.status ∧ w.consecutiveFailures = whW.consecutiveFailures ∧
        w.teamId = whW.teamId ∧ w.createdByUserId = whW.createdByUserId := by
  refine ⟨by decide, ?_⟩
  rcases C10_update_frame ctxW 7 uiW dbW whW (by decide) (by decide) (by decide)
    with ⟨w, hok, _, hteam, hstat, hcf, huser, _⟩
  exact ⟨w, hok, hstat, hcf, hteam, huser⟩

end UseSend

namespace UseSend

/-- The cursor-positioned, ordered sequence of matching call rows that
`listCalls` pages through (the `findMany` result before `take`). -/
def orderedMatchingCalls (ctx : Ctx) (input : ListCallsInput) (db : Db) :
    List WebhookCall :=
  applyCursor input.cursor
    ((db.webhookCalls.filter (matchesCallFilter ctx.team.id input)).mergeSort byCreatedAtDesc)

theorem take_length_gt_iff {α : Type} (l : List α) (L : Nat) :
    L < (l.take (L + 1)).length ↔ L < l.length := by
  simp only [List.length_take, Nat.lt_min]
  omega

theorem take_getLast?_eq {α : Type} (l : List α) (L : Nat) (h : L < l.length) :
    (l.take (L + 1)).getLast? = l[L]? := by
  rw [List.getLast?_eq_getElem?]
  have hlen : (l.take (L + 1)).length = L + 1 := by
    simp only [List.length_take]
    omega
  rw [hlen]
  simp [List.getElem?_take]

theorem listCalls_eq (ctx : Ctx) (input : ListCallsInput) (db : Db)
    (hv : validListCallsInput input = true) :
    listCalls ctx input db =
      (if input.limit.getD 20 <
          ((orderedMatchingCalls ctx input db).take (input.limit.getD 20 + 1)).length
        then Except.ok
          { items := ((orderedMatchingCalls ctx input db).take
              (input.limit.getD 20 + 1)).dropLast
            nextCursor := ((orderedMatchingCalls ctx input db).take
              (input.limit.getD 20 + 1)).getLast?.map WebhookCall.id }
        else Except.ok
          { items := (orderedMatchingCalls ctx input db).take (input.limit.getD 20 + 1)
            nextCursor := none }) := by
  simp only [listCalls, hv, if_true, findManyCalls, orderedMatchingCalls]

/-- C6: with valid input the effective page size lies between 1 and 50
(20 when omitted); `listCalls` succeeds with at most that many items, all
of them matching call rows of the store, ordered by `createdAt`
descending; and `nextCursor` is the id of the first row of the
cursor-positioned matching sequence excluded from the page when more such
rows exist, `none` otherwise. -/
theorem C6_listCalls (ctx : Ctx) (input : ListCallsInput) (db : Db)
    (hv : validListCallsInput input = true) :
    1 ≤ input.limit.getD 20 ∧ input.limit.getD 20 ≤ 50 ∧
    ∃ r, listCalls ctx input db = Except.ok r ∧
      r.items.length ≤ input.limit.getD 20 ∧
      (∀ c ∈ r.items, c ∈ db.webhookCalls ∧ matchesCallFilter ctx.team.id input c = true) ∧
      r.items.Pairwise (fun a b => b.createdAt ≤ a.createdAt) ∧
      r.nextCursor =
        (if input.limit.getD 20 < (orderedMatchingCalls ctx input db).length
          then ((orderedMatchingCalls ctx input db)[input.limit.getD 20]?).map WebhookCall.id
          else none) := by
  have hbounds : 1 ≤ input.limit.getD 20 ∧ input.limit.getD 20 ≤ 50 := by
    unfold validListCallsInput at hv
    cases hlim : input.limit with
    | none => simp [hlim]
    | some l =>
      rw [hlim] at hv
      simp only [Bool.and_eq_true, decide_eq_true_eq] at hv
      simpa [hlim] using hv
  refine ⟨hbounds.1, hbounds.2, ?_⟩
  have hsubseq : (orderedMatchingCalls ctx input db).Sublist
      ((db.webhookCalls.filter (matchesCallFilter ctx.team.id input)).mergeSort
        byCreatedAtDesc) := by
    unfold orderedMatchingCalls applyCursor
    cases input.cursor with
    | none => exact List.Sublist.refl _
    | some c => exact List.dropWhile_sublist _
  have htrans : ∀ a b c : WebhookCall, byCreatedAtDesc a b = true →
      byCreatedAtDesc b c = true → byCreatedAtDesc a c = true := by
    intro a b c hab hbc
    simp only [byCreatedAtDesc, decide_eq_true_eq] at hab hbc ⊢
    omega
  have htotal : ∀ a b : WebhookCall, (byCreatedAtDesc a b || byCreatedAtDesc b a) = true := by
    intro a b
    simp only [byCreatedAtDesc, Bool.or_eq_true, decide_eq_true_eq]
    omega
  have hms := List.sorted_mergeSort htrans htotal
    (db.webhookCalls.filter (matchesCallFilter ctx.team.id input))
  have hseqsorted := hms.sublist hsubseq
  have htakesorted : ((orderedMatchingCalls ctx input db).take
      (input.limit.getD 20 + 1)).Pairwise (fun a b => b.createdAt ≤ a.createdAt) := by
    have h := hseqsorted.sublist (List.take_sublist (input.limit.getD 20 + 1) _)
    exact h.imp (fun hab => by simpa [byCreatedAtDesc] using hab)
  have hmemtake : ∀ c ∈ (orderedMatchingCalls ctx input db).take (input.limit.getD 20 + 1),
      c ∈ db.webhookCalls ∧ matchesCallFilter ctx.team.id input c = true := by
    intro c hc
    have h1 : c ∈ orderedMatchingCalls ctx input db :=
      (List.take_sublist _ _).mem hc
    have h2 := hsubseq.mem h1
    have h3 := List.mem_mergeSort.mp h2
    exact List.mem_filter.mp h3
  rw [listCalls_eq ctx input db hv]
  by_cases hpop : input.limit.getD 20 <
      ((orderedMatchingCalls ctx input db).take (input.limit.getD 20 + 1)).length
  · have hlt : input.limit.getD 20 < (orderedMatchingCalls ctx input db).length :=
      (take_length_gt_iff _ _).mp hpop
    refine ⟨_, by rw [if_pos hpop], ?_, ?_, ?_, ?_⟩
    · simp only [List.length_dropLast, List.length_take]
      omega
    · intro c hc
      exact hmemtake c ((List.dropLast_sublist _).mem hc)
    · exact htakesorted.sublist (List.dropLast_sublist _)
    · rw [if_pos hlt, take_getLast?_eq _ _ hlt]
  · have hge : ¬ input.limit.getD 20 < (orderedMatchingCalls ctx input db).length :=
      fun h => hpop ((take_length_gt_iff _ _).mpr h)
    refine ⟨_, by rw [if_neg hpop], ?_, hmemtake, htakesorted, ?_⟩
    · simp only [List.length_take] at hpop ⊢
      omega
    · rw [if_neg hge]

/-- Shared fixture: a SUCCESS call row of `teamW` for webhook `w1`. -/
def callW (i : String) (t : Nat) : WebhookCall :=
  { id := i
    teamId := "t1"
    webhookId := "w1"
    status := WebhookCallStatus.SUCCESS
    createdAt := t }

/-- Shared fixture: store with four call rows in scrambled creation
order. -/
def dbCalls : Db :=
  { webhooks := [whW]
    webhookCalls := [callW "c1" 10, callW "c2" 30, callW "c3" 20, callW "c4" 40] }

/-- Shared fixture: a `listCalls` input asking for pages of two. -/
def lcW : ListCallsInput :=
  { webhookId := none
    status := none
    limit := some 2
    cursor := none }

/-- Witness for C6: paging the four-row fixture two at a time succeeds
within the limit. -/
theorem C6_listCalls_witness :
    validListCallsInput lcW = true ∧
      ∃ r, listCalls ctxW lcW dbCalls = Except.ok r ∧
        r.items.length ≤ lcW.limit.getD 20 := by
  refine ⟨by decide, ?_⟩
  rcases (C6_listCalls ctxW lcW dbCalls (by decide)).2.2 with ⟨r, hr, hlen, _⟩
  exact ⟨r, hr, hlen⟩

end UseSend
